import Mathlib

/-!
# Verification of the cipher_trapdoor_sets algebraic core

A shallow embedding of the trapdoor / set primitives of the
cipher_trapdoor_sets C++ library, together with proofs about the claims of
its specification.

Modelling conventions:
* A hash word (C++ core::hash_value, an array of N bytes) is a List Nat
  whose entries are the byte values; the byte-wise bitwise operators of the
  source become List.zipWith of the corresponding Nat operators.  Where a
  statement depends on the width N it carries the hypothesis that the list
  has length N.
* The C++ classes throw std::invalid_argument / std::runtime_error with
  distinct messages; the specification names these failure kinds
  IncompatibleKey, SizeMismatch, InvalidThreshold, InsufficientShares,
  EmptyCompound and TruncatedInput.  Fallible operations are embedded as
  Except cts_error.
* Error rates are C++ doubles holding exact values such as 0.5 and
  2 to the power -(8 N); they are embedded as rationals.
* The keyed derivation (key_derivation::derive) is built on std::hash,
  whose concrete output is implementation defined; it is embedded as an
  abstract function parameter from values to hash words, which the source
  applies deterministically.  std::to_string on an index becomes toString.
-/

/-- The named failure kinds of the specification error taxonomy.  The C++
source signals them as exceptions (std::invalid_argument, and
std::runtime_error for the empty compound case). -/
inductive cts_error where
  | incompatible_key
  | size_mismatch
  | invalid_threshold
  | insufficient_shares
  | empty_compound
  | truncated_input
deriving DecidableEq, Repr

/-! ## Hash words (core/hash_types.hpp, struct hash_value) -/

/-- Byte-wise XOR: hash_value::operator^ .  -/
def hash_xor (a b : List Nat) : List Nat := List.zipWith (· ^^^ ·) a b

/-- Byte-wise AND: hash_value::operator& .  -/
def hash_and (a b : List Nat) : List Nat := List.zipWith (· &&& ·) a b

/-- Byte-wise OR: hash_value::operator| .  -/
def hash_or (a b : List Nat) : List Nat := List.zipWith (· ||| ·) a b

/-- The default-constructed (all zero bytes) hash word of width N. -/
def zero_hash (N : Nat) : List Nat := List.replicate N 0

/-! ## Approximate values (core/approximate_value.hpp) -/

/-- approximate_bool: a boolean together with a false positive rate and a
false negative rate (C++ doubles, embedded as rationals). -/
structure approximate_bool where
  value : Bool
  false_positive_rate : ℚ
  false_negative_rate : ℚ
deriving DecidableEq, Repr

/-- approximate_value::compose_error_rates. -/
def compose_error_rates (e1 e2 : ℚ) : ℚ := e1 + e2 - e1 * e2

/-- approximate_bool::operator&& . -/
def approx_and (a b : approximate_bool) : approximate_bool :=
  ⟨a.value && b.value,
   compose_error_rates a.false_positive_rate b.false_positive_rate,
   compose_error_rates a.false_negative_rate b.false_negative_rate⟩

/-! ## Trapdoors (trapdoor.hpp) -/

/-- trapdoor: an N-byte hash word together with the key fingerprint
(a std::size_t). -/
structure trapdoor where
  hash : List Nat
  key_fingerprint : Nat
deriving DecidableEq, Repr

/-- trapdoor_factory::create, with the keyed derivation abstracted as the
function parameter derive (key_derivation::derive is std::hash based and
implementation defined, but deterministic). -/
def trapdoor_factory_create {α : Type} (derive : α → List Nat) (kf : Nat)
    (v : α) : trapdoor :=
  ⟨derive v, kf⟩

/-- trapdoor::equals: throws on incompatible key fingerprints, otherwise
compares the hash words with false positive rate 2 to the power -(8 N)
and false negative rate 0.  N is the hash width in bytes. -/
def trapdoor_equals (N : Nat) (a b : trapdoor) :
    Except cts_error approximate_bool :=
  if a.key_fingerprint ≠ b.key_fingerprint then
    .error .incompatible_key
  else
    .ok ⟨a.hash == b.hash, 1 / 2 ^ (8 * N), 0⟩

/-! ## Threshold scheme construction (operations/homomorphic.hpp) -/

/-- threshold_scheme: the pair (k, n) of a k-of-n scheme. -/
structure threshold_scheme where
  threshold_k : Nat
  total_n : Nat
deriving DecidableEq, Repr

/-- The threshold_scheme constructor: throws InvalidThreshold exactly when
k exceeds n (the source performs no check on k = 0). -/
def threshold_scheme_make (k n : Nat) : Except cts_error threshold_scheme :=
  if k > n then .error .invalid_threshold
  else .ok ⟨k, n⟩

/-! ## Symmetric difference sets (sets/symmetric_difference_set.hpp) -/

/-- symmetric_difference_set: an N-byte hash word and a key fingerprint. -/
structure symmetric_difference_set where
  hash : List Nat
  key_fingerprint : Nat
deriving DecidableEq, Repr

/-- The default-constructed empty symmetric difference set of width N:
zero hash word and key fingerprint 0 (also what the factory empty()
returns). -/
def sds_empty (N : Nat) : symmetric_difference_set :=
  ⟨zero_hash N, 0⟩

/-- symmetric_difference_set::operator^ : verify_compatible throws only
when both fingerprints are nonzero and differ; the result carries the
hash XOR and the key fingerprint of the LEFT operand. -/
def sds_xor (a b : symmetric_difference_set) :
    Except cts_error symmetric_difference_set :=
  if a.key_fingerprint ≠ 0 ∧ b.key_fingerprint ≠ 0 ∧
      a.key_fingerprint ≠ b.key_fingerprint then
    .error .incompatible_key
  else
    .ok ⟨hash_xor a.hash b.hash, a.key_fingerprint⟩

/-- symmetric_difference_set::operator^= with a trapdoor element: throws
when the element fingerprint differs from a nonzero set fingerprint; a
zero set fingerprint adopts the element fingerprint; the hash is XORed
with the element hash. -/
def sds_accum (s : symmetric_difference_set) (elem : trapdoor) :
    Except cts_error symmetric_difference_set :=
  if elem.key_fingerprint ≠ s.key_fingerprint ∧ s.key_fingerprint ≠ 0 then
    .error .incompatible_key
  else
    .ok ⟨hash_xor s.hash elem.hash,
         if s.key_fingerprint = 0 then elem.key_fingerprint
         else s.key_fingerprint⟩

/-! ## Boolean sets (sets/boolean_set.hpp) -/

/-- boolean_set: an N-byte hash word and a key fingerprint. -/
structure boolean_set where
  hash : List Nat
  key_fingerprint : Nat
deriving DecidableEq, Repr

/-- boolean_set::operator| (union): verify_compatible throws whenever the
fingerprints differ; the result is the byte-wise OR. -/
def bs_union (a b : boolean_set) : Except cts_error boolean_set :=
  if a.key_fingerprint ≠ b.key_fingerprint then .error .incompatible_key
  else .ok ⟨hash_or a.hash b.hash, a.key_fingerprint⟩

/-- boolean_set::operator& (intersection). -/
def bs_inter (a b : boolean_set) : Except cts_error boolean_set :=
  if a.key_fingerprint ≠ b.key_fingerprint then .error .incompatible_key
  else .ok ⟨hash_and a.hash b.hash, a.key_fingerprint⟩

/-- boolean_set::operator^ (symmetric difference). -/
def bs_symdiff (a b : boolean_set) : Except cts_error boolean_set :=
  if a.key_fingerprint ≠ b.key_fingerprint then .error .incompatible_key
  else .ok ⟨hash_xor a.hash b.hash, a.key_fingerprint⟩

/-- boolean_set::equals: hash comparison with false positive rate
2 to the power -(8 N). -/
def bs_equals (N : Nat) (a b : boolean_set) :
    Except cts_error approximate_bool :=
  if a.key_fingerprint ≠ b.key_fingerprint then .error .incompatible_key
  else .ok ⟨a.hash == b.hash, 1 / 2 ^ (8 * N), 0⟩

/-- boolean_set::subset_of: value is whether the byte-wise AND equals the
hash of the left set, with false positive rate 0.5 and false negative
rate 0. -/
def bs_subset_of (a b : boolean_set) :
    Except cts_error approximate_bool :=
  if a.key_fingerprint ≠ b.key_fingerprint then .error .incompatible_key
  else .ok ⟨hash_and a.hash b.hash == a.hash, 1/2, 0⟩

/-- boolean_set::contains: throws on a foreign key fingerprint; otherwise
the value is whether every set bit of the RAW hash of the element
trapdoor is set in the set hash (masked = set AND elem; value =
(masked == elem)), with false positive rate 0.5 and false negative
rate 0.  No singleton mask is computed. -/
def bs_contains (a : boolean_set) (elem : trapdoor) :
    Except cts_error approximate_bool :=
  if elem.key_fingerprint ≠ a.key_fingerprint then .error .incompatible_key
  else .ok ⟨hash_and a.hash elem.hash == elem.hash, 1/2, 0⟩

/-- One round of the Bloom-style bit rule of
boolean_set_factory::singleton: byte j of the result gets bit (i mod 8)
when the low bit of byte j of the derived hash is one. -/
def bs_round_mask (td_hash : List Nat) (i : Nat) : List Nat :=
  td_hash.map (fun b => if b % 2 = 1 then 2 ^ (i % 8) else 0)

/-- boolean_set_factory::singleton: OR of the round masks of the hashes
derived from the salted strings; the source builds the salted value as
std::to_string(i) + std::to_string(std::hash(value)).  Here derive
abstracts the keyed derivation on strings and std_hash abstracts
std::hash of the value type. -/
def bs_singleton {α : Type} (N m : Nat) (derive : String → List Nat)
    (std_hash : α → Nat) (kf : Nat) (v : α) : boolean_set :=
  ⟨(List.range m).foldl
      (fun acc i =>
        hash_or acc
          (bs_round_mask (derive (toString i ++ toString (std_hash v))) i))
      (zero_hash N),
   kf⟩

/-- boolean_set_factory::empty: zero hash word with the factory key
fingerprint. -/
def bs_empty (N kf : Nat) : boolean_set := ⟨zero_hash N, kf⟩

/-- boolean_set_factory::from_collection: union of the singletons of the
collection members, starting from the empty set. -/
def bs_from_collection {α : Type} (N m : Nat) (derive : String → List Nat)
    (std_hash : α → Nat) (kf : Nat) (vs : List α) :
    Except cts_error boolean_set :=
  vs.foldlM
    (fun acc v => bs_union acc (bs_singleton N m derive std_hash kf v))
    (bs_empty N kf)

/-- Modelled from the spec: the contains predicate of the specification,
which "computes the singleton mask that t would have set (reusing the
hash of t via the same per-byte rule)" and tests (mask AND set hash) ==
mask.  The per-byte rule is applied to the hash of t for each round
i below m, mirroring the singleton construction. -/
def bs_contains_spec_mask (m : Nat) (t_hash : List Nat) : List Nat :=
  (List.range m).foldl
    (fun acc i => hash_or acc (bs_round_mask t_hash i))
    (zero_hash t_hash.length)

/-- Modelled from the spec: membership as the specification states it,
using bs_contains_spec_mask in place of the raw trapdoor hash. -/
def bs_contains_spec (m : Nat) (a : boolean_set) (elem : trapdoor) :
    Except cts_error approximate_bool :=
  if elem.key_fingerprint ≠ a.key_fingerprint then .error .incompatible_key
  else
    .ok ⟨hash_and (bs_contains_spec_mask m elem.hash) a.hash
           == bs_contains_spec_mask m elem.hash, 1/2, 0⟩

/-! ## Homomorphic layer (operations/homomorphic.hpp) -/

/-- additive_trapdoor: a hash word, a key fingerprint and the stored
numeric payload (encrypted_value_ in the source, embedded as Int). -/
structure additive_trapdoor where
  hash : List Nat
  key_fingerprint : Nat
  encrypted_value : Int
deriving DecidableEq, Repr

/-- additive_trapdoor::operator+ : throws on incompatible keys; XOR on
the hashes, numeric addition on the payloads. -/
def at_add (a b : additive_trapdoor) : Except cts_error additive_trapdoor :=
  if a.key_fingerprint ≠ b.key_fingerprint then .error .incompatible_key
  else .ok ⟨hash_xor a.hash b.hash, a.key_fingerprint,
            a.encrypted_value + b.encrypted_value⟩

/-- additive_trapdoor::operator* : the hash starts as the original and is
XORed with the original once per loop iteration i = 1 .. abs(scalar) - 1;
the payload is multiplied by the scalar. -/
def at_scalar_mul (t : additive_trapdoor) (scalar : Int) :
    additive_trapdoor :=
  ⟨(List.range (scalar.natAbs - 1)).foldl
      (fun acc _ => hash_xor acc t.hash) t.hash,
   t.key_fingerprint,
   t.encrypted_value * scalar⟩

/-- threshold_scheme::create_shares: the n - 1 words drawn from
std::rand are abstracted as the list rands (truncated to n - 1); the
last share is the trapdoor hash XORed with the first
min(k - 1, number of random shares) random shares.  (The source computes
k - 1 in std::size_t, which underflows at k = 0; Nat subtraction models
the loop bound for the k of at least 1 that the scheme claims assume.) -/
def create_shares (k n : Nat) (rands : List (List Nat)) (td : trapdoor) :
    List (List Nat) :=
  rands.take (n - 1) ++
    [((rands.take (n - 1)).take
        (min (k - 1) (rands.take (n - 1)).length)).foldl hash_xor td.hash]

/-- threshold_scheme::reconstruct: throws InsufficientShares when fewer
than k shares are supplied; otherwise XORs the first k shares (the source
reads shares[0] and then XORs shares 1 .. k-1; for an empty share list,
reachable only at k = 0, that read is out of bounds and the model returns
the empty word). -/
def reconstruct (k : Nat) (shares : List (List Nat)) (kf : Nat) :
    Except cts_error trapdoor :=
  if shares.length < k then .error .insufficient_shares
  else
    .ok ⟨((shares.drop 1).take (k - 1)).foldl hash_xor (shares.headD []), kf⟩

/-! ## MinHash and LSH (operations/similarity.hpp) -/

/-- minhash::signature: the vector of 32-bit coordinate minima and the
key fingerprint. -/
structure minhash_signature where
  values : List Nat
  key_fingerprint : Nat
deriving DecidableEq, Repr

/-- The 32-bit projection of a derived hash: fold the first four bytes
big-endian (the source shifts a uint32 left by 8 and ORs each byte; with
at most four bytes below 256 this is exact base-256 accumulation). -/
def mh_hash32 (h : List Nat) : Nat :=
  (h.take 4).foldl (fun acc b => acc * 256 + b) 0

/-- The freshly constructed signature: every coordinate is the maximum
uint32 value. -/
def mh_signature_init (num_hashes kf : Nat) : minhash_signature :=
  ⟨List.replicate num_hashes (2 ^ 32 - 1), kf⟩

/-- minhash::generate_signature: per collection member and per coordinate
i, the coordinate becomes the minimum of itself and the 32-bit projection
of the hash derived from the salted string to_string(i) ++
to_string(std_hash(value)). -/
def mh_generate_signature {α : Type} (num_hashes : Nat)
    (derive : String → List Nat) (std_hash : α → Nat) (kf : Nat)
    (vs : List α) : minhash_signature :=
  vs.foldl
    (fun sig v =>
      ⟨List.zipWith
          (fun i cur =>
            min cur
              (mh_hash32 (derive (toString i ++ toString (std_hash v)))))
          (List.range num_hashes) sig.values,
       sig.key_fingerprint⟩)
    (mh_signature_init num_hashes kf)

/-- minhash::estimate_similarity: throws on incompatible fingerprints or
unequal signature lengths; otherwise the similarity is the fraction of
equal coordinates.  The source stores the standard error
sqrt(sim * (1 - sim) / num_hashes); to stay in the rationals the model
returns the pair of the similarity and the SQUARE of that error, which is
zero exactly when the error is zero. -/
def mh_estimate_similarity (num_hashes : Nat)
    (a b : minhash_signature) : Except cts_error (ℚ × ℚ) :=
  if a.key_fingerprint ≠ b.key_fingerprint then .error .incompatible_key
  else if a.values.length ≠ b.values.length then .error .size_mismatch
  else
    let match_count := ((List.zip a.values b.values).filter
      (fun p => p.1 == p.2)).length
    let similarity : ℚ := (match_count : ℚ) / (a.values.length : ℚ)
    .ok (similarity, similarity * (1 - similarity) / (num_hashes : ℚ))

/-- lsh_index::lsh_signature: the band hashes and the key fingerprint. -/
structure lsh_signature where
  bands : List Nat
  key_fingerprint : Nat
deriving DecidableEq, Repr

/-- lsh_index::are_similar: when the key fingerprints differ the source
RETURNS approximate_bool(false, 0.0, 1.0) instead of throwing; the
compatible branch (band matching and the inverse LSH curve, which uses
floating point powers with real exponents) is abstracted as the
parameter sim_branch, since the claims only concern the fingerprint
check. -/
def lsh_are_similar
    (sim_branch : lsh_signature → lsh_signature → ℚ → approximate_bool)
    (a b : lsh_signature) (threshold : ℚ) : approximate_bool :=
  if a.key_fingerprint ≠ b.key_fingerprint then ⟨false, 0, 1⟩
  else sim_branch a b threshold

/-! ## Binary serialization (serialization/binary_format.hpp) -/

/-- The byte image of a std::size_t key fingerprint: count bytes, least
significant first (the memcpy of the source copies the native
little-endian representation on the target platforms). -/
def nat_to_bytes_le : Nat → Nat → List Nat
  | 0, _ => []
  | n + 1, v => v % 256 :: nat_to_bytes_le n (v / 256)

/-- Read back a little-endian byte image as a natural number. -/
def nat_from_bytes_le : List Nat → Nat
  | [] => 0
  | b :: bs => b + 256 * nat_from_bytes_le bs

/-- binary_serializer::serialize for a trapdoor: N hash bytes followed by
the 8 bytes of the key fingerprint. -/
def serialize_trapdoor (td : trapdoor) : List Nat :=
  td.hash ++ nat_to_bytes_le 8 td.key_fingerprint

/-- binary_deserializer::deserialize_trapdoor: fails with TruncatedInput
below N + 8 bytes; otherwise the first N bytes are the hash and the next
8 bytes are the key fingerprint. -/
def deserialize_trapdoor (N : Nat) (bytes : List Nat) :
    Except cts_error trapdoor :=
  if bytes.length < N + 8 then .error .truncated_input
  else .ok ⟨bytes.take N, nat_from_bytes_le ((bytes.drop N).take 8)⟩

/-- binary_serializer::serialize for a symmetric difference set: same
layout as for a trapdoor. -/
def serialize_sym_diff_set (s : symmetric_difference_set) : List Nat :=
  s.hash ++ nat_to_bytes_le 8 s.key_fingerprint

/-- binary_deserializer::deserialize_sym_diff_set. -/
def deserialize_sym_diff_set (N : Nat) (bytes : List Nat) :
    Except cts_error symmetric_difference_set :=
  if bytes.length < N + 8 then .error .truncated_input
  else .ok ⟨bytes.take N, nat_from_bytes_le ((bytes.drop N).take 8)⟩

/-- binary_serializer::serialize for a boolean set: same layout as for a
trapdoor. -/
def serialize_boolean_set (b : boolean_set) : List Nat :=
  b.hash ++ nat_to_bytes_le 8 b.key_fingerprint

/-- binary_deserializer::deserialize_boolean_set. -/
def deserialize_boolean_set (N : Nat) (bytes : List Nat) :
    Except cts_error boolean_set :=
  if bytes.length < N + 8 then .error .truncated_input
  else .ok ⟨bytes.take N, nat_from_bytes_le ((bytes.drop N).take 8)⟩

/-! ## Claim C8: the approximate-bool conjunction and error composition -/

/-- Claim C8: for every pair of approximate bools, the conjunction has
value a.value AND b.value, false positive rate compose(a.fpr, b.fpr) and
false negative rate compose(a.fnr, b.fnr), where
compose(e1, e2) = e1 + e2 - e1 * e2; and compose maps the unit square into
the unit interval, so no saturation clamp is applied. -/
theorem claim_c8 (a b : approximate_bool) (e1 e2 : ℚ)
    (h1 : 0 ≤ e1) (h2 : e1 ≤ 1) (h3 : 0 ≤ e2) (h4 : e2 ≤ 1) :
    (approx_and a b).value = (a.value && b.value) ∧
    (approx_and a b).false_positive_rate
      = compose_error_rates a.false_positive_rate b.false_positive_rate ∧
    (approx_and a b).false_negative_rate
      = compose_error_rates a.false_negative_rate b.false_negative_rate ∧
    0 ≤ compose_error_rates e1 e2 ∧ compose_error_rates e1 e2 ≤ 1 := by
  refine ⟨rfl, rfl, rfl, ?_, ?_⟩
  · have hx : 0 ≤ e1 * (1 - e2) := mul_nonneg h1 (by linarith)
    unfold compose_error_rates
    nlinarith
  · have hx : 0 ≤ (1 - e1) * (1 - e2) :=
      mul_nonneg (by linarith) (by linarith)
    unfold compose_error_rates
    nlinarith

/-- Witness for claim C8 at concrete inputs. -/
theorem claim_c8_witness :
    (approx_and ⟨true, 1/4, 0⟩ ⟨false, 1/3, 1/2⟩).value = (true && false) ∧
    (approx_and ⟨true, 1/4, 0⟩ ⟨false, 1/3, 1/2⟩).false_positive_rate
      = compose_error_rates (1/4) (1/3) ∧
    (approx_and ⟨true, 1/4, 0⟩ ⟨false, 1/3, 1/2⟩).false_negative_rate
      = compose_error_rates 0 (1/2) ∧
    0 ≤ compose_error_rates (1/4) (1/3) ∧
    compose_error_rates (1/4) (1/3) ≤ 1 :=
  claim_c8 ⟨true, 1/4, 0⟩ ⟨false, 1/3, 1/2⟩ (1/4) (1/3)
    (by norm_num) (by norm_num) (by norm_num) (by norm_num)

/-! ## Claim C7: threshold-scheme construction -/

/-- Counterexample to claim C7: constructing a threshold scheme with
k = 0 and n = 5 succeeds; the source only rejects k greater than n, so
the construction does not fail with InvalidThreshold at k = 0. -/
theorem claim_c7_counterexample :
    threshold_scheme_make 0 5 = .ok ⟨0, 5⟩ := rfl

/-- Claim C7 (amended): constructing a threshold scheme fails with
InvalidThreshold exactly when k exceeds n, and succeeds exactly when
k is at most n; the case k = 0 is not rejected. -/
theorem claim_c7_amended (k n : Nat) :
    (threshold_scheme_make k n = .error .invalid_threshold ↔ n < k) ∧
    (threshold_scheme_make k n = .ok ⟨k, n⟩ ↔ k ≤ n) := by
  unfold threshold_scheme_make
  constructor
  · constructor
    · intro h
      by_contra hc
      rw [if_neg (by omega)] at h
      exact Except.noConfusion h
    · intro h
      rw [if_pos (by omega)]
  · constructor
    · intro h
      by_contra hc
      rw [if_pos (by omega)] at h
      exact Except.noConfusion h
    · intro h
      rw [if_neg (by omega)]

/-! ## Hash-word lemmas -/

/-- XOR with itself cancels byte-wise. -/
theorem nat_xor_cancel_right (a b x : Nat) :
    (a ^^^ x) ^^^ (b ^^^ x) = a ^^^ b := by
  rw [Nat.xor_comm b x, ← Nat.xor_assoc, Nat.xor_assoc a x x,
    Nat.xor_self, Nat.xor_zero]

/-- The zero word is a left identity for hash_xor. -/
theorem hash_xor_zero_left (h : List Nat) :
    hash_xor (zero_hash h.length) h = h := by
  induction h with
  | nil => rfl
  | cons a t ih =>
    simpa [hash_xor, zero_hash, List.replicate_succ] using ih

/-- The zero word is a right identity for hash_xor. -/
theorem hash_xor_zero_right (h : List Nat) :
    hash_xor h (zero_hash h.length) = h := by
  induction h with
  | nil => rfl
  | cons a t ih =>
    simpa [hash_xor, zero_hash, List.replicate_succ] using ih

/-- hash_xor of a word with itself is the zero word. -/
theorem hash_xor_self (h : List Nat) :
    hash_xor h h = zero_hash h.length := by
  induction h with
  | nil => rfl
  | cons a t _ =>
    simp [hash_xor, zero_hash, List.replicate_succ]

/-- The length of a hash_xor is the minimum of the operand lengths. -/
theorem hash_xor_length (a b : List Nat) :
    (hash_xor a b).length = min a.length b.length := by
  simp [hash_xor]

/-- XORing both fold arguments with the same word cancels. -/
theorem hash_xor_cancel (x a b : List Nat) (hx : x.length = a.length) :
    hash_xor (hash_xor a x) (hash_xor b x) = hash_xor a b := by
  induction x generalizing a b with
  | nil =>
    have ha : a = [] := List.eq_nil_of_length_eq_zero hx.symm
    subst ha
    simp [hash_xor]
  | cons xh xt ih =>
    cases a with
    | nil => simp at hx
    | cons ah atl =>
      cases b with
      | nil => simp [hash_xor]
      | cons bh btl =>
        simp only [hash_xor, List.zipWith_cons_cons,
          nat_xor_cancel_right]
        have hx' : xt.length = atl.length := by
          simpa using hx
        simpa [hash_xor] using congrArg (List.cons (ah ^^^ bh)) (ih atl btl hx')

/-- Folding hash_xor over the same list from two starting words and then
XORing the results cancels the list. -/
theorem foldl_hash_xor_cancel (l : List (List Nat)) (a b : List Nat)
    (hab : b.length = a.length) (hl : ∀ x ∈ l, x.length = a.length) :
    hash_xor (l.foldl hash_xor a) (l.foldl hash_xor b) = hash_xor a b := by
  induction l generalizing a b with
  | nil => rfl
  | cons x xs ih =>
    have hx : x.length = a.length := hl x (by simp)
    have h1 : (hash_xor a x).length = a.length := by
      rw [hash_xor_length]; omega
    have h2 : (hash_xor b x).length = (hash_xor a x).length := by
      rw [hash_xor_length, h1, hab, hx]; omega
    have h3 : ∀ y ∈ xs, y.length = (hash_xor a x).length := by
      intro y hy
      rw [h1]
      exact hl y (List.mem_cons_of_mem _ hy)
    rw [List.foldl_cons, List.foldl_cons, ih (hash_xor a x) (hash_xor b x) h2 h3,
      hash_xor_cancel x a b hx]

/-! ## Claim C2: the empty symmetric-difference set -/

/-- Counterexample to claim C2: combining the empty set (fingerprint 0)
with a peer of fingerprint 7 through the binary operator^ yields a result
whose fingerprint is 0, not the peer fingerprint 7: operator^ keeps the
fingerprint of the LEFT operand and never adopts the peer one. -/
theorem claim_c2_counterexample :
    sds_xor (sds_empty 1) ⟨[5], 7⟩ = .ok ⟨[5], 0⟩ ∧ (0 : Nat) ≠ 7 := by
  constructor
  · rfl
  · decide

/-- Claim C2 (amended): the empty symmetric_difference_set has key
fingerprint 0 and leaves the peer hash unchanged under XOR on either
side; the binary operator^ keeps the fingerprint of the left operand (so
s XOR empty keeps the fingerprint of s, while empty XOR s keeps 0), and
only the element-accumulating operator^= adopts the peer fingerprint on
the first combine. -/
theorem claim_c2_amended (N : Nat) (s : symmetric_difference_set)
    (t : trapdoor) (hs : s.hash.length = N) (ht : t.hash.length = N) :
    (sds_empty N).key_fingerprint = 0 ∧
    sds_xor (sds_empty N) s = .ok ⟨s.hash, 0⟩ ∧
    sds_xor s (sds_empty N) = .ok ⟨s.hash, s.key_fingerprint⟩ ∧
    sds_accum (sds_empty N) t = .ok ⟨t.hash, t.key_fingerprint⟩ := by
  refine ⟨rfl, ?_, ?_, ?_⟩
  · unfold sds_xor sds_empty
    rw [if_neg (by simp)]
    have : hash_xor (zero_hash N) s.hash = s.hash := by
      rw [← hs]; exact hash_xor_zero_left s.hash
    simp [this]
  · unfold sds_xor sds_empty
    rw [if_neg (by simp)]
    have : hash_xor s.hash (zero_hash N) = s.hash := by
      rw [← hs]; exact hash_xor_zero_right s.hash
    simp [this]
  · unfold sds_accum sds_empty
    rw [if_neg (by simp)]
    have : hash_xor (zero_hash N) t.hash = t.hash := by
      rw [← ht]; exact hash_xor_zero_left t.hash
    simp [this]

/-- Witness for claim C2 (amended) at concrete inputs. -/
theorem claim_c2_amended_witness :
    (sds_empty 1).key_fingerprint = 0 ∧
    sds_xor (sds_empty 1) ⟨[3], 4⟩ = .ok ⟨[3], 0⟩ ∧
    sds_xor ⟨[3], 4⟩ (sds_empty 1) = .ok ⟨[3], 4⟩ ∧
    sds_accum (sds_empty 1) ⟨[9], 2⟩ = .ok ⟨[9], 2⟩ :=
  claim_c2_amended 1 ⟨[3], 4⟩ ⟨[9], 2⟩ rfl rfl

/-! ## Claim C5: trapdoor equality -/

/-- Claim C5: trapdoor::equals fails with IncompatibleKey on differing
key fingerprints; otherwise the value is the hash comparison, the false
positive rate is exactly 2 to the power -(8 N) and the false negative
rate is 0; trapdoors created from the same value under the same key
compare true, and trapdoors of values with distinct derived hashes
compare false. -/
theorem claim_c5 {α : Type} (N : Nat) (a b c d : trapdoor)
    (F : α → List Nat) (kf : Nat) (v w : α)
    (hab : a.key_fingerprint = b.key_fingerprint)
    (hcd : c.key_fingerprint ≠ d.key_fingerprint)
    (hvw : F v ≠ F w) :
    trapdoor_equals N a b = .ok ⟨a.hash == b.hash, 1 / 2 ^ (8 * N), 0⟩ ∧
    trapdoor_equals N c d = .error .incompatible_key ∧
    trapdoor_equals N (trapdoor_factory_create F kf v)
        (trapdoor_factory_create F kf v)
      = .ok ⟨true, 1 / 2 ^ (8 * N), 0⟩ ∧
    trapdoor_equals N (trapdoor_factory_create F kf v)
        (trapdoor_factory_create F kf w)
      = .ok ⟨false, 1 / 2 ^ (8 * N), 0⟩ := by
  refine ⟨?_, ?_, ?_, ?_⟩
  · unfold trapdoor_equals
    rw [if_neg (by simp [hab])]
  · unfold trapdoor_equals
    rw [if_pos hcd]
  · unfold trapdoor_equals trapdoor_factory_create
    rw [if_neg (by simp)]
    simp
  · unfold trapdoor_equals trapdoor_factory_create
    rw [if_neg (by simp)]
    simp [hvw]

/-- Witness for claim C5 at concrete inputs. -/
theorem claim_c5_witness :
    trapdoor_equals 1 ⟨[2], 5⟩ ⟨[6], 5⟩
      = .ok ⟨[2] == [6], 1 / 2 ^ (8 * 1), 0⟩ ∧
    trapdoor_equals 1 ⟨[1], 1⟩ ⟨[1], 2⟩ = .error .incompatible_key ∧
    trapdoor_equals 1 (trapdoor_factory_create (fun n => [n]) 3 0)
        (trapdoor_factory_create (fun n => [n]) 3 0)
      = .ok ⟨true, 1 / 2 ^ (8 * 1), 0⟩ ∧
    trapdoor_equals 1 (trapdoor_factory_create (fun n => [n]) 3 0)
        (trapdoor_factory_create (fun n => [n]) 3 1)
      = .ok ⟨false, 1 / 2 ^ (8 * 1), 0⟩ :=
  claim_c5 1 ⟨[2], 5⟩ ⟨[6], 5⟩ ⟨[1], 1⟩ ⟨[1], 2⟩ (fun n : Nat => [n]) 3 0 1
    rfl (by decide) (by decide)

/-! ## Claim C3: incompatible-key behaviour of the combining operations -/

/-- Counterexample to claim C3: lsh_index::are_similar applied to two
signatures with differing, nonzero key fingerprints does not raise
IncompatibleKey; it returns the approximate bool (false, fpr 0, fnr 1)
(here with an arbitrary concrete compatible-branch function, which the
fingerprint check precedes). -/
theorem claim_c3_counterexample :
    lsh_are_similar (fun _ _ _ => ⟨true, 0, 0⟩) ⟨[0], 1⟩ ⟨[0], 2⟩ (1/2)
      = ⟨false, 0, 1⟩ ∧
    (1 : Nat) ≠ 2 ∧ (1 : Nat) ≠ 0 ∧ (2 : Nat) ≠ 0 := by
  refine ⟨rfl, by decide, by decide, by decide⟩

/-- Claim C3 (amended): with differing key fingerprints, boolean_set
union, intersection, symmetric difference, equals and subset_of all fail
with IncompatibleKey, as does additive_trapdoor addition; lsh_index
are_similar, however, returns the approximate bool (false, fpr 0, fnr 1)
instead of surfacing a failure. -/
theorem claim_c3_amended (N : Nat) (a b : boolean_set)
    (p q : additive_trapdoor) (x y : lsh_signature)
    (br : lsh_signature → lsh_signature → ℚ → approximate_bool) (τ : ℚ)
    (hab : a.key_fingerprint ≠ b.key_fingerprint)
    (hpq : p.key_fingerprint ≠ q.key_fingerprint)
    (hxy : x.key_fingerprint ≠ y.key_fingerprint) :
    bs_union a b = .error .incompatible_key ∧
    bs_inter a b = .error .incompatible_key ∧
    bs_symdiff a b = .error .incompatible_key ∧
    bs_equals N a b = .error .incompatible_key ∧
    bs_subset_of a b = .error .incompatible_key ∧
    at_add p q = .error .incompatible_key ∧
    lsh_are_similar br x y τ = ⟨false, 0, 1⟩ := by
  refine ⟨?_, ?_, ?_, ?_, ?_, ?_, ?_⟩
  · unfold bs_union; rw [if_pos hab]
  · unfold bs_inter; rw [if_pos hab]
  · unfold bs_symdiff; rw [if_pos hab]
  · unfold bs_equals; rw [if_pos hab]
  · unfold bs_subset_of; rw [if_pos hab]
  · unfold at_add; rw [if_pos hpq]
  · unfold lsh_are_similar; rw [if_pos hxy]

/-- Witness for claim C3 (amended) at concrete inputs. -/
theorem claim_c3_amended_witness :
    bs_union ⟨[0], 1⟩ ⟨[0], 2⟩ = .error .incompatible_key ∧
    bs_inter ⟨[0], 1⟩ ⟨[0], 2⟩ = .error .incompatible_key ∧
    bs_symdiff ⟨[0], 1⟩ ⟨[0], 2⟩ = .error .incompatible_key ∧
    bs_equals 1 ⟨[0], 1⟩ ⟨[0], 2⟩ = .error .incompatible_key ∧
    bs_subset_of ⟨[0], 1⟩ ⟨[0], 2⟩ = .error .incompatible_key ∧
    at_add ⟨[0], 1, 3⟩ ⟨[0], 2, 4⟩ = .error .incompatible_key ∧
    lsh_are_similar (fun _ _ _ => ⟨true, 0, 0⟩) ⟨[0], 3⟩ ⟨[0], 4⟩ (1/2)
      = ⟨false, 0, 1⟩ :=
  claim_c3_amended 1 ⟨[0], 1⟩ ⟨[0], 2⟩ ⟨[0], 1, 3⟩ ⟨[0], 2, 4⟩ ⟨[0], 3⟩
    ⟨[0], 4⟩ (fun _ _ _ => ⟨true, 0, 0⟩) (1/2)
    (by decide) (by decide) (by decide)

/-! ## Claim C1: boolean-set membership -/

/-- Counterexample to claim C1: with the abstract derivations
instantiated concretely (width 1, one sub-hash, the string derivation
constantly the byte 1, std::hash of the value type constantly 0, the
value derivation constantly the byte 2, fingerprint 1), the set built
from the one-element collection containing 0 is the byte 1; contains
applied to the trapdoor of the member 0 compares raw-hash bits and
returns value FALSE, while the contains of the specification (singleton
mask recomputed from the trapdoor hash by the per-byte rule) would
return value true at the very same inputs. -/
theorem claim_c1_counterexample :
    bs_from_collection 1 1 (fun _ => [1]) (fun _ : Nat => 0) 1 [0]
      = .ok ⟨[1], 1⟩ ∧
    bs_contains ⟨[1], 1⟩ (trapdoor_factory_create (fun _ : Nat => [2]) 1 0)
      = .ok ⟨false, 1/2, 0⟩ ∧
    bs_contains_spec 1 ⟨[1], 1⟩
        (trapdoor_factory_create (fun _ : Nat => [2]) 1 0)
      = .ok ⟨true, 1/2, 0⟩ := by
  refine ⟨rfl, rfl, rfl⟩

/-- Claim C1 (amended): boolean_set::contains does not compute a
singleton mask; it raises IncompatibleKey on a foreign fingerprint and
otherwise returns value = ((a.hash AND t.hash) == t.hash) — every set
bit of the raw trapdoor hash must be set in the set hash — with false
positive rate 0.5 and false negative rate 0.  Membership of collection
members is not guaranteed, because singleton masks are derived from
salted hashes unrelated to the raw trapdoor hash (see the
counterexample). -/
theorem claim_c1_amended (a a2 : boolean_set) (t t2 : trapdoor)
    (h : t.key_fingerprint = a.key_fingerprint)
    (h2 : t2.key_fingerprint ≠ a2.key_fingerprint) :
    bs_contains a t = .ok ⟨hash_and a.hash t.hash == t.hash, 1/2, 0⟩ ∧
    ((hash_and a.hash t.hash == t.hash) = true ↔
      hash_and a.hash t.hash = t.hash) ∧
    bs_contains a2 t2 = .error .incompatible_key := by
  refine ⟨?_, ?_, ?_⟩
  · unfold bs_contains
    rw [if_neg (by simp [h])]
  · exact beq_iff_eq
  · unfold bs_contains
    rw [if_pos h2]

/-- Witness for claim C1 (amended) at concrete inputs. -/
theorem claim_c1_amended_witness :
    bs_contains ⟨[3], 1⟩ ⟨[2], 1⟩
      = .ok ⟨hash_and [3] [2] == [2], 1/2, 0⟩ ∧
    ((hash_and [3] [2] == [2]) = true ↔ hash_and [3] [2] = [2]) ∧
    bs_contains ⟨[0], 1⟩ ⟨[0], 2⟩ = .error .incompatible_key :=
  claim_c1_amended ⟨[3], 1⟩ ⟨[0], 1⟩ ⟨[2], 1⟩ ⟨[0], 2⟩ rfl (by decide)

/-! ## Claim C9: scalar multiplication of additive trapdoors -/

/-- The commutativity of hash_xor. -/
theorem hash_xor_comm (a b : List Nat) : hash_xor a b = hash_xor b a := by
  induction a generalizing b with
  | nil => cases b <;> rfl
  | cons x xs ih =>
    cases b with
    | nil => rfl
    | cons y ys =>
      show (x ^^^ y) :: hash_xor xs ys = (y ^^^ x) :: hash_xor ys xs
      rw [Nat.xor_comm, ih ys]

/-- The associativity of hash_xor. -/
theorem hash_xor_assoc (a b c : List Nat) :
    hash_xor (hash_xor a b) c = hash_xor a (hash_xor b c) := by
  induction a generalizing b c with
  | nil => rfl
  | cons x xs ih =>
    cases b with
    | nil => rfl
    | cons y ys =>
      cases c with
      | nil => rfl
      | cons z zs =>
        show ((x ^^^ y) ^^^ z) :: hash_xor (hash_xor xs ys) zs
          = (x ^^^ (y ^^^ z)) :: hash_xor xs (hash_xor ys zs)
        rw [Nat.xor_assoc, ih ys zs]

/-- XORing a word onto a start word an even number of times gives the
start back; an odd number of times gives the zero word. -/
theorem foldl_xor_with_self (h : List Nat) (c : Nat) :
    (List.range c).foldl (fun acc _ => hash_xor acc h) h
      = if c % 2 = 0 then h else zero_hash h.length := by
  induction c with
  | zero => simp
  | succ m ih =>
    rw [List.range_succ, List.foldl_append, List.foldl_cons, List.foldl_nil,
      ih]
    rcases Nat.mod_two_eq_zero_or_one m with hm | hm
    · rw [if_pos hm, if_neg (by omega)]
      exact hash_xor_self h
    · rw [if_neg (by omega), if_pos (by omega)]
      exact hash_xor_zero_left h

/-- Claim C9: for a scalar of absolute value at least 1, the scalar
product multiplies the payload by the scalar, keeps the key fingerprint,
and leaves the hash unchanged when the absolute value is odd but zeroes
it when the absolute value is even (the hash is XOR-folded with itself
abs(scalar) - 1 times). -/
theorem claim_c9 (t : additive_trapdoor) (s : Int) (hs : 1 ≤ s.natAbs) :
    (at_scalar_mul t s).encrypted_value = t.encrypted_value * s ∧
    (at_scalar_mul t s).key_fingerprint = t.key_fingerprint ∧
    (at_scalar_mul t s).hash
      = if s.natAbs % 2 = 1 then t.hash else zero_hash t.hash.length := by
  refine ⟨rfl, rfl, ?_⟩
  show (List.range (s.natAbs - 1)).foldl (fun acc _ => hash_xor acc t.hash)
      t.hash = _
  rw [foldl_xor_with_self]
  rcases Nat.mod_two_eq_zero_or_one s.natAbs with h | h
  · rw [if_neg (by omega), if_neg (by omega)]
  · rw [if_pos (by omega), if_pos (by omega)]

/-- Witness for claim C9 at the concrete scalar -2. -/
theorem claim_c9_witness :
    (at_scalar_mul ⟨[7], 4, 5⟩ (-2)).encrypted_value = 5 * (-2) ∧
    (at_scalar_mul ⟨[7], 4, 5⟩ (-2)).key_fingerprint = 4 ∧
    (at_scalar_mul ⟨[7], 4, 5⟩ (-2)).hash
      = if (-2 : Int).natAbs % 2 = 1 then [7]
        else zero_hash ([7] : List Nat).length :=
  claim_c9 ⟨[7], 4, 5⟩ (-2) (by decide)

/-! ## Claim C6: k-of-n share creation and canonical reconstruction -/

/-- XORing a word y onto (t XOR y) recovers t. -/
theorem hash_xor_left_cancel (y t : List Nat) (h : t.length = y.length) :
    hash_xor y (hash_xor t y) = t := by
  rw [hash_xor_comm t y, ← hash_xor_assoc, hash_xor_self, ← h]
  exact hash_xor_zero_left t

/-- Claim C6: for a k-of-n scheme with 1 <= k <= n and the n - 1 random
words abstracted as rands, create_shares returns the n - 1 random shares
followed by a last share equal to the trapdoor hash XORed with the first
k - 1 random shares (n shares in total); reconstruct applied to the
canonical subset (first k - 1 shares followed by the last share) yields
a trapdoor whose hash equals the original; and reconstruct fails with
InsufficientShares on any share list shorter than k. -/
theorem claim_c6 (N k n kf : Nat) (rands : List (List Nat)) (td : trapdoor)
    (bad_shares : List (List Nat))
    (hk1 : 1 ≤ k) (hkn : k ≤ n)
    (hrlen : rands.length = n - 1)
    (hrN : ∀ r ∈ rands, r.length = N) (htdN : td.hash.length = N)
    (hbad : bad_shares.length < k) :
    create_shares k n rands td
      = rands ++ [(rands.take (k - 1)).foldl hash_xor td.hash] ∧
    (create_shares k n rands td).length = n ∧
    reconstruct k
        ((rands.take (k - 1))
          ++ [(rands.take (k - 1)).foldl hash_xor td.hash]) kf
      = .ok ⟨td.hash, kf⟩ ∧
    reconstruct k bad_shares kf = .error .insufficient_shares := by
  have htake : rands.take (n - 1) = rands :=
    List.take_of_length_le (by omega)
  have hshape : create_shares k n rands td
      = rands ++ [(rands.take (k - 1)).foldl hash_xor td.hash] := by
    unfold create_shares
    rw [htake]
    have hmin : min (k - 1) rands.length = k - 1 := by omega
    rw [hmin]
  refine ⟨hshape, ?_, ?_, ?_⟩
  · rw [hshape]
    simp [hrlen]
    omega
  · have hysl : (rands.take (k - 1)).length = k - 1 := by
      rw [List.length_take]; omega
    have hysN : ∀ y ∈ rands.take (k - 1), y.length = N := by
      intro y hy
      exact hrN y (List.take_subset _ _ hy)
    unfold reconstruct
    rw [if_neg (by simp [hysl]; omega)]
    rcases hys : rands.take (k - 1) with _ | ⟨y, ytl⟩
    · -- k = 1: the canonical subset is the singleton last share,
      -- which is the trapdoor hash itself
      simp
    · -- k >= 2: peel the head share and cancel the tail fold
      have hyN : y.length = N := hysN y (by rw [hys]; simp)
      have hytlN : ∀ x ∈ ytl, x.length = N := by
        intro x hx
        exact hysN x (by rw [hys]; simp [hx])
      have hytl_len : ytl.length = k - 2 := by
        have h2 := hysl
        rw [hys] at h2
        simp at h2
        omega
      have hk2 : 2 ≤ k := by
        have h2 := hysl
        rw [hys] at h2
        simp at h2
        omega
      show Except.ok (trapdoor.mk (List.foldl hash_xor y
          (List.take (k - 1)
            (ytl ++ [List.foldl hash_xor (hash_xor td.hash y) ytl]))) kf)
        = Except.ok ⟨td.hash, kf⟩
      have htk : (ytl ++ [List.foldl hash_xor (hash_xor td.hash y) ytl]).take
            (k - 1)
          = ytl ++ [List.foldl hash_xor (hash_xor td.hash y) ytl] := by
        apply List.take_of_length_le
        simp [hytl_len]
        omega
      rw [htk, List.foldl_append, List.foldl_cons, List.foldl_nil]
      have hcancel := foldl_hash_xor_cancel ytl y (hash_xor td.hash y)
        (by rw [hash_xor_length, htdN, hyN]; omega)
        (fun x hx => by rw [hyN]; exact hytlN x hx)
      rw [hcancel, hash_xor_left_cancel y td.hash (by rw [htdN, hyN])]
  · unfold reconstruct
    rw [if_pos hbad]

/-- Witness for claim C6: a 2-of-3 scheme over one-byte hashes with
random words 3 and 5 and trapdoor hash 6. -/
theorem claim_c6_witness :
    create_shares 2 3 [[3], [5]] ⟨[6], 9⟩
      = [[3], [5]] ++ [(([[3], [5]] : List (List Nat)).take (2 - 1)).foldl
          hash_xor [6]] ∧
    (create_shares 2 3 [[3], [5]] ⟨[6], 9⟩).length = 3 ∧
    reconstruct 2
        ((([[3], [5]] : List (List Nat)).take (2 - 1))
          ++ [(([[3], [5]] : List (List Nat)).take (2 - 1)).foldl
              hash_xor [6]]) 9
      = .ok ⟨[6], 9⟩ ∧
    reconstruct 2 [[3]] 9 = .error .insufficient_shares :=
  claim_c6 1 2 3 9 [[3], [5]] ⟨[6], 9⟩ [[3]] (by decide) (by decide) rfl
    (by decide) rfl (by decide)

/-! ## Claim C4: serialization round-trip -/

/-- The byte image of the fingerprint has the requested length. -/
theorem nat_to_bytes_le_length (n v : Nat) :
    (nat_to_bytes_le n v).length = n := by
  induction n generalizing v with
  | zero => rfl
  | succ m ih => simp [nat_to_bytes_le, ih]

/-- Reading back a little-endian byte image recovers the value modulo
256 to the byte count. -/
theorem nat_bytes_roundtrip (n v : Nat) :
    nat_from_bytes_le (nat_to_bytes_le n v) = v % 256 ^ n := by
  induction n generalizing v with
  | zero => simp [nat_to_bytes_le, nat_from_bytes_le, Nat.mod_one]
  | succ m ih =>
    simp only [nat_to_bytes_le, nat_from_bytes_le, ih]
    have hP : 0 < 256 ^ m := Nat.pos_pow_of_pos m (by norm_num)
    have hr2 : v / 256 % 256 ^ m < 256 ^ m := Nat.mod_lt _ hP
    have hr : v % 256 < 256 := Nat.mod_lt _ (by norm_num)
    have key : v = (256 * 256 ^ m) * (v / 256 / 256 ^ m)
        + (256 * (v / 256 % 256 ^ m) + v % 256) := by
      conv_lhs => rw [← Nat.div_add_mod v 256, ← Nat.div_add_mod (v / 256) (256 ^ m)]
      ring
    have hlt : 256 * (v / 256 % 256 ^ m) + v % 256 < 256 * 256 ^ m := by
      have hb := Nat.mul_le_mul_left 256 (Nat.succ_le_of_lt hr2)
      omega
    have hmod : v % (256 * 256 ^ m)
        = 256 * (v / 256 % 256 ^ m) + v % 256 := by
      conv_lhs => rw [key]
      rw [Nat.mul_add_mod, Nat.mod_eq_of_lt hlt]
    rw [pow_succ]
    have h256 : (256 : Nat) ^ m * 256 = 256 * 256 ^ m := by ring
    rw [h256, hmod]
    omega

/-- The truncation test, the hash part and the fingerprint part of the
hash-then-fingerprint byte layout. -/
theorem serialized_components (N : Nat) (h : List Nat) (kf : Nat)
    (hh : h.length = N) (hkf : kf < 2 ^ 64) :
    ¬ (h ++ nat_to_bytes_le 8 kf).length < N + 8 ∧
    (h ++ nat_to_bytes_le 8 kf).take N = h ∧
    nat_from_bytes_le (((h ++ nat_to_bytes_le 8 kf).drop N).take 8) = kf := by
  have hlen : (nat_to_bytes_le 8 kf).length = 8 := nat_to_bytes_le_length 8 kf
  refine ⟨?_, ?_, ?_⟩
  · simp [hlen, hh]
  · rw [← hh]
    exact List.take_left h (nat_to_bytes_le 8 kf)
  · rw [← hh, List.drop_left]
    have ht8 : (nat_to_bytes_le 8 kf).take 8 = nat_to_bytes_le 8 kf :=
      List.take_of_length_le (by rw [hlen])
    rw [ht8, nat_bytes_roundtrip]
    have h64 : (256 : Nat) ^ 8 = 2 ^ 64 := by norm_num
    rw [h64]
    exact Nat.mod_eq_of_lt hkf

/-- Claim C4: for every trapdoor, symmetric_difference_set and
boolean_set value, deserializing the serialization yields a value
bit-identical to the original in both the N-byte hash and the key
fingerprint (the fingerprint being a std::size_t, below 2 to the 64). -/
theorem claim_c4 (N : Nat) (td : trapdoor) (s : symmetric_difference_set)
    (b : boolean_set)
    (h1 : td.hash.length = N) (h2 : td.key_fingerprint < 2 ^ 64)
    (h3 : s.hash.length = N) (h4 : s.key_fingerprint < 2 ^ 64)
    (h5 : b.hash.length = N) (h6 : b.key_fingerprint < 2 ^ 64) :
    deserialize_trapdoor N (serialize_trapdoor td) = .ok td ∧
    deserialize_sym_diff_set N (serialize_sym_diff_set s) = .ok s ∧
    deserialize_boolean_set N (serialize_boolean_set b) = .ok b := by
  obtain ⟨c1, c2, c3⟩ :=
    serialized_components N td.hash td.key_fingerprint h1 h2
  obtain ⟨d1, d2, d3⟩ :=
    serialized_components N s.hash s.key_fingerprint h3 h4
  obtain ⟨e1, e2, e3⟩ :=
    serialized_components N b.hash b.key_fingerprint h5 h6
  refine ⟨?_, ?_, ?_⟩
  · unfold deserialize_trapdoor serialize_trapdoor
    rw [if_neg c1, c2, c3]
  · unfold deserialize_sym_diff_set serialize_sym_diff_set
    rw [if_neg d1, d2, d3]
  · unfold deserialize_boolean_set serialize_boolean_set
    rw [if_neg e1, e2, e3]

/-- Witness for claim C4 at concrete two-byte values. -/
theorem claim_c4_witness :
    deserialize_trapdoor 2 (serialize_trapdoor ⟨[1, 2], 300⟩)
      = .ok ⟨[1, 2], 300⟩ ∧
    deserialize_sym_diff_set 2 (serialize_sym_diff_set ⟨[5, 0], 7⟩)
      = .ok ⟨[5, 0], 7⟩ ∧
    deserialize_boolean_set 2 (serialize_boolean_set ⟨[255, 4], 0⟩)
      = .ok ⟨[255, 4], 0⟩ :=
  claim_c4 2 ⟨[1, 2], 300⟩ ⟨[5, 0], 7⟩ ⟨[255, 4], 0⟩ rfl (by norm_num) rfl
    (by norm_num) rfl (by norm_num)

/-! ## Claim C10: MinHash signatures of empty collections -/

/-- Zipping a replicated list with itself replicates the pair. -/
theorem zip_replicate_self {γ : Type} (n : Nat) (x : γ) :
    List.zip (List.replicate n x) (List.replicate n x)
      = List.replicate n (x, x) := by
  induction n with
  | zero => rfl
  | succ m ih => simp [List.replicate_succ, ih]

/-- Filtering equal pairs keeps every replicated equal pair. -/
theorem filter_eq_pair_replicate (n x : Nat) :
    (List.replicate n (x, x)).filter (fun p => p.1 == p.2)
      = List.replicate n (x, x) := by
  induction n with
  | zero => rfl
  | succ m ih => simp [List.replicate_succ, ih]

/-- Claim C10: a MinHash signature generated from an empty collection has
every coordinate equal to 2 to the 32 minus 1 (the initial maximum), and
estimate_similarity on two such signatures under the same key returns
similarity 1 with (squared) error 0. -/
theorem claim_c10 {α : Type} (num_hashes kf : Nat)
    (derive : String → List Nat) (std_hash : α → Nat)
    (hn : 1 ≤ num_hashes) :
    mh_generate_signature num_hashes derive std_hash kf ([] : List α)
      = ⟨List.replicate num_hashes (2 ^ 32 - 1), kf⟩ ∧
    mh_estimate_similarity num_hashes
        (mh_generate_signature num_hashes derive std_hash kf ([] : List α))
        (mh_generate_signature num_hashes derive std_hash kf ([] : List α))
      = .ok (1, 0) := by
  constructor
  · rfl
  · show mh_estimate_similarity num_hashes (mh_signature_init num_hashes kf)
        (mh_signature_init num_hashes kf) = .ok (1, 0)
    unfold mh_estimate_similarity mh_signature_init
    rw [if_neg (by simp), if_neg (by simp)]
    rw [zip_replicate_self, filter_eq_pair_replicate]
    simp only [List.length_replicate]
    have hq : (num_hashes : ℚ) ≠ 0 := Nat.cast_ne_zero.mpr (by omega)
    rw [div_self hq]
    norm_num

/-- Witness for claim C10 at the default signature length 128. -/
theorem claim_c10_witness :
    mh_generate_signature 128 (fun _ => [0]) (fun n : Nat => n) 6
        ([] : List Nat)
      = ⟨List.replicate 128 (2 ^ 32 - 1), 6⟩ ∧
    mh_estimate_similarity 128
        (mh_generate_signature 128 (fun _ => [0]) (fun n : Nat => n) 6
          ([] : List Nat))
        (mh_generate_signature 128 (fun _ => [0]) (fun n : Nat => n) 6
          ([] : List Nat))
      = .ok (1, 0) :=
  claim_c10 128 6 (fun _ => [0]) (fun n : Nat => n) (by norm_num)
